import Mathlib

/-!
Verification development for the construction-document assistant repository.

The TypeScript source is shallowly embedded as follows.

* JavaScript strings that undergo character-level processing (lower-casing,
  substring search, splitting, trimming, slicing) are modelled as `List Char`
  (`Str` below).  Names, enum-like tags and error messages, which are only ever
  compared for equality or concatenated, are modelled as Lean `String`.
* JavaScript numbers are modelled as exact rationals `ℚ`: every numeric literal
  of the source is rendered as the exact decimal it denotes, and `Math.PI` as
  the exact value of the IEEE-754 double stored in that constant.  NaN and the
  rounding of individual double operations are outside the model; no verified
  statement depends on them.
* Fallible collaborators (the LLM endpoint, the dynamic `Function` evaluation
  of the custom-formula branch) are parameters of the embedded functions; a
  thrown exception or absent value is `none`.
* The store collaborators `getDocumentsByUserId` / `getChunksByUserDocuments`
  return the calling user's rows in storage order; the embedded search and
  agent functions receive those row lists as arguments.
* The `while` loop of `splitIntoChunks` is embedded fuel-indexed, because its
  termination is one of the claims under examination.
-/

/-! ## JavaScript string primitives (over `Str := List Char`) -/

abbrev Str := List Char

/-- Literal helper: the character list of a Lean string literal. -/
def lit (s : String) : Str := s.data

/-- The characters matched by the regular-expression class `\s` / removed by
`String.prototype.trim`, restricted to the ASCII range (the only characters the
repository's inputs exercise). -/
def jsIsWs (c : Char) : Bool :=
  c = ' ' || c = '\t' || c = '\n' || c = '\r' || c = Char.ofNat 11 || c = Char.ofNat 12

/-- `String.prototype.toLowerCase`, character-wise. -/
def toLowerStr (s : Str) : Str := s.map Char.toLower

/-- `String.prototype.includes needle hay`: `needle` occurs contiguously in `hay`. -/
def isSubstr (needle hay : Str) : Bool := hay.tails.any (fun t => needle.isPrefixOf t)

/-- Worker for `splitWs`: `cur` is the reversed current token, `inWs` records
whether the scanner is inside a whitespace run (in which case `cur = []`). -/
def splitWsGo : Str → Str → Bool → List Str
  | [], cur, _ => [cur.reverse]
  | c :: cs, cur, inWs =>
    if inWs then
      if jsIsWs c then splitWsGo cs [] true
      else splitWsGo cs [c] false
    else
      if jsIsWs c then cur.reverse :: splitWsGo cs [] true
      else splitWsGo cs (c :: cur) false

/-- `String.prototype.split(/\s+/)`: splits at maximal whitespace runs; a
leading (resp. trailing) run contributes a leading (resp. trailing) empty
token, and the empty string splits to `[""]`, exactly as in JavaScript. -/
def splitWs (s : Str) : List Str := splitWsGo s [] false

/-- `String.prototype.trim` (ASCII whitespace, see `jsIsWs`). -/
def jsTrim (s : Str) : Str :=
  ((s.dropWhile jsIsWs).reverse.dropWhile jsIsWs).reverse

/-- `String.prototype.slice(a, b)` with JavaScript clamping of negative and
out-of-range indices. -/
def jsSlice (s : Str) (a b : Int) : Str :=
  let len : Int := s.length
  let f : Int := if a < 0 then max (len + a) 0 else min a len
  let t : Int := if b < 0 then max (len + b) 0 else min b len
  if f < t then (s.drop f.toNat).take (t - f).toNat else []

/-- `String.prototype.lastIndexOf(pat, pos)`: the largest index `i ≤ pos`
(a negative `pos` is clamped to `0`) at which `pat` occurs, or `-1`. -/
def jsLastIndexOf (s pat : Str) (pos : Int) : Int :=
  let p : Int := if pos < 0 then 0 else pos
  match ((List.range (s.length + 1)).filter
      (fun (i : Nat) => decide (Int.ofNat i ≤ p) && pat.isPrefixOf (s.drop i))).getLast? with
  | some i => (i : Int)
  | none => -1

/-- JavaScript `String(n)` for a non-negative integer. -/
def natToStr (n : Nat) : Str := (Nat.repr n).data

example : splitWs (lit "a  b") = [lit "a", lit "b"] := by decide
example : splitWs (lit " a") = [[], lit "a"] := by decide
example : splitWs (lit "a ") = [lit "a", []] := by decide
example : splitWs [] = [[]] := by decide
example : jsTrim (lit "  ab c\n") = lit "ab c" := by decide
example : jsSlice (lit "abcde") (-1) 8 = lit "e" := by decide
example : jsSlice (lit "abcde") 1 3 = lit "bc" := by decide
example : jsLastIndexOf (lit "aabaa") (lit "aa") 10 = 3 := by decide
example : jsLastIndexOf (lit "aabaa") (lit "aa") 2 = 0 := by decide
example : jsLastIndexOf (lit "abc") (lit "z") 5 = -1 := by decide
example : isSubstr (lit "bc") (lit "abcd") = true := by decide
example : isSubstr [] (lit "abcd") = true := by decide
example : isSubstr (lit "ca") (lit "abcd") = false := by decide

/-! ## Calculation Engine (`executeCalculation` in the agent module) -/

/-- A JavaScript `Record<string, number>`: an object literal with unique keys,
modelled as an association list read by first match. -/
abbrev ValMap := List (String × ℚ)

/-- Property read `values[k]`: `none` models `undefined`. -/
def jsLookup (values : ValMap) (k : String) : Option ℚ :=
  (values.find? (fun p => p.1 == k)).map (fun p => p.2)

/-- JavaScript truthiness of a possibly-absent number: `undefined` and `0` are
falsy (`NaN`, also falsy, has no rational counterpart and is outside the
model). -/
def jsTruthy : Option ℚ → Bool
  | some v => v != 0
  | none => false

/-- JavaScript truthiness of a possibly-absent string: `undefined` and `""`
are falsy. -/
def jsTruthyStr : Option String → Bool
  | some s => !s.isEmpty
  | none => false

/-- JavaScript truthiness of a possibly-absent `Str`. -/
def jsTruthyChars : Option Str → Bool
  | some s => !s.isEmpty
  | none => false

/-- JavaScript number-to-string coercion, exact on the integral values that the
verified statements inspect; non-integral rationals are rendered as exact
fractions (a stand-in for the JS shortest-round-trip decimal rendering, which
no verified statement depends on). -/
def qToStr (q : ℚ) : Str :=
  if q.den = 1 then (Int.repr q.num).data
  else (Int.repr q.num).data ++ lit "/" ++ (Nat.repr q.den).data

/-- Left-pads a digit string to four characters. -/
def padTo4 (s : String) : String :=
  String.mk (List.replicate (4 - s.length) '0') ++ s

/-- `Number.prototype.toFixed(4)`, up to the rounding-mode detail at exact
ties (which no verified statement depends on: `toFixed` output only appears
inside explanation strings that no claim inspects). -/
def qToFixed4 (q : ℚ) : Str :=
  let n : Int := Int.floor (q * 10000 + 1 / 2)
  let sign : String := if n < 0 then "-" else ""
  let a : Nat := n.natAbs
  (sign ++ Nat.repr (a / 10000) ++ "." ++ padTo4 (Nat.repr (a % 10000))).data

/-- The exact value of the IEEE-754 double stored in `Math.PI`. -/
def jsMathPI : ℚ := 884279719003555 / 281474976710656

/-- The `UNIT_CONVERSIONS` table: categories in source order, each a keyed
record of conversion factors. -/
def UNIT_CONVERSIONS : List (String × List (String × ℚ)) :=
  [ ("length",
      [ ("ft_to_m", 0.3048), ("m_to_ft", 3.28084),
        ("in_to_cm", 2.54), ("cm_to_in", 0.393701),
        ("yd_to_m", 0.9144), ("m_to_yd", 1.09361) ]),
    ("area",
      [ ("sqft_to_sqm", 0.092903), ("sqm_to_sqft", 10.7639),
        ("sqyd_to_sqm", 0.836127), ("sqm_to_sqyd", 1.19599),
        ("acre_to_sqm", 4046.86), ("sqm_to_acre", 0.000247105) ]),
    ("volume",
      [ ("cuft_to_cum", 0.0283168), ("cum_to_cuft", 35.3147),
        ("cuyd_to_cum", 0.764555), ("cum_to_cuyd", 1.30795),
        ("gal_to_l", 3.78541), ("l_to_gal", 0.264172) ]),
    ("weight",
      [ ("lb_to_kg", 0.453592), ("kg_to_lb", 2.20462),
        ("ton_to_kg", 907.185), ("kg_to_ton", 0.00110231),
        ("tonne_to_kg", 1000), ("kg_to_tonne", 0.001) ]) ]

/-- The `for (const category of Object.values(UNIT_CONVERSIONS))` loop: the
first category whose record holds a truthy (present, non-zero) factor for the
key wins; `none` models the loop completing with `factor` still `undefined`. -/
def findFactor (key : String) : List (String × List (String × ℚ)) → Option ℚ
  | [] => none
  | cat :: rest =>
    match jsLookup cat.2 key with
    | some f => if f != 0 then some f else findFactor key rest
    | none => findFactor key rest

/-- The parsed argument object of the `calculate_quantity` tool. -/
structure CalcInput where
  calculation_type : String
  values : ValMap
  formula : Option Str
  unit_from : Option String
  unit_to : Option String
deriving DecidableEq

/-- Return value of `executeCalculation`: the structured success object
(`result`, `explanation`, `calculation_type`, `input_values`) or the
structured error object. -/
inductive CalcOutput where
  | ok (result : ℚ) (explanation : Str) (calculation_type : String)
      (input_values : ValMap)
  | error (msg : String)
deriving DecidableEq

/-- `executeCalculation`.  `customEval` is the dynamic-evaluation collaborator
of the `custom` branch (the `try` block that substitutes `values` into
`formula` textually and feeds the result to `Function`); it returns `none`
when that block throws, which the source converts to the structured
`"Invalid formula or values"` error. -/
def executeCalculation (input : CalcInput)
    (customEval : Str → ValMap → Option ℚ) : CalcOutput :=
  let values := input.values
  match input.calculation_type with
  | "area" =>
    if jsTruthy (jsLookup values "length") && jsTruthy (jsLookup values "width") then
      let l := (jsLookup values "length").getD 0
      let w := (jsLookup values "width").getD 0
      CalcOutput.ok (l * w)
        (lit "Area = " ++ qToStr l ++ lit " × " ++ qToStr w ++ lit " = "
          ++ qToStr (l * w) ++ lit " square units") "area" values
    else if jsTruthy (jsLookup values "radius") then
      let r := (jsLookup values "radius").getD 0
      CalcOutput.ok (jsMathPI * r * r)
        (lit "Area = π × " ++ qToStr r ++ lit "² = "
          ++ qToFixed4 (jsMathPI * r * r) ++ lit " square units") "area" values
    else CalcOutput.error "Missing required values for area calculation (length/width or radius)"
  | "volume" =>
    if jsTruthy (jsLookup values "length") && jsTruthy (jsLookup values "width")
        && jsTruthy (jsLookup values "height") then
      let l := (jsLookup values "length").getD 0
      let w := (jsLookup values "width").getD 0
      let h := (jsLookup values "height").getD 0
      CalcOutput.ok (l * w * h)
        (lit "Volume = " ++ qToStr l ++ lit " × " ++ qToStr w ++ lit " × "
          ++ qToStr h ++ lit " = " ++ qToStr (l * w * h) ++ lit " cubic units")
        "volume" values
    else if jsTruthy (jsLookup values "area") && jsTruthy (jsLookup values "depth") then
      let a := (jsLookup values "area").getD 0
      let d := (jsLookup values "depth").getD 0
      CalcOutput.ok (a * d)
        (lit "Volume = " ++ qToStr a ++ lit " × " ++ qToStr d ++ lit " = "
          ++ qToStr (a * d) ++ lit " cubic units") "volume" values
    else CalcOutput.error "Missing required values for volume calculation"
  | "linear" =>
    if jsTruthy (jsLookup values "quantity") && jsTruthy (jsLookup values "unit_length") then
      let q := (jsLookup values "quantity").getD 0
      let u := (jsLookup values "unit_length").getD 0
      CalcOutput.ok (q * u)
        (lit "Total length = " ++ qToStr q ++ lit " × " ++ qToStr u ++ lit " = "
          ++ qToStr (q * u) ++ lit " linear units") "linear" values
    else CalcOutput.error "Missing required values for linear calculation"
  | "weight" =>
    if jsTruthy (jsLookup values "volume") && jsTruthy (jsLookup values "density") then
      let v := (jsLookup values "volume").getD 0
      let d := (jsLookup values "density").getD 0
      CalcOutput.ok (v * d)
        (lit "Weight = " ++ qToStr v ++ lit " × " ++ qToStr d ++ lit " = "
          ++ qToStr (v * d) ++ lit " weight units") "weight" values
    else if jsTruthy (jsLookup values "quantity") && jsTruthy (jsLookup values "unit_weight") then
      let q := (jsLookup values "quantity").getD 0
      let u := (jsLookup values "unit_weight").getD 0
      CalcOutput.ok (q * u)
        (lit "Total weight = " ++ qToStr q ++ lit " × " ++ qToStr u ++ lit " = "
          ++ qToStr (q * u) ++ lit " weight units") "weight" values
    else CalcOutput.error "Missing required values for weight calculation"
  | "conversion" =>
    if jsTruthyStr input.unit_from && jsTruthyStr input.unit_to
        && (jsLookup values "value").isSome then
      let uf := input.unit_from.getD ""
      let ut := input.unit_to.getD ""
      let conversionKey := uf ++ "_to_" ++ ut
      match findFactor conversionKey UNIT_CONVERSIONS with
      | some factor =>
        let v := (jsLookup values "value").getD 0
        CalcOutput.ok (v * factor)
          (qToStr v ++ lit " " ++ lit uf ++ lit " = " ++ qToFixed4 (v * factor)
            ++ lit " " ++ lit ut) "conversion" values
      | none =>
        CalcOutput.error ("Conversion from " ++ uf ++ " to " ++ ut ++ " not supported")
    else CalcOutput.error "Missing required values for conversion (value, unit_from, unit_to)"
  | "custom" =>
    if jsTruthyChars input.formula then
      let f := input.formula.getD []
      match customEval f values with
      | some r =>
        CalcOutput.ok r
          (lit "Custom calculation: " ++ f ++ lit " = " ++ qToStr r) "custom" values
      | none => CalcOutput.error "Invalid formula or values"
    else CalcOutput.error "Custom calculation requires a formula"
  | other => CalcOutput.error ("Unknown calculation type: " ++ other)

/-- A dynamic-evaluation collaborator that always throws; the area, volume,
linear, weight and conversion branches never consult it. -/
def noEval : Str → ValMap → Option ℚ := fun _ _ => none

example :
    executeCalculation ⟨"area", [("length", 4), ("width", 5)], none, none, none⟩ noEval
      = CalcOutput.ok 20 (lit "Area = 4 × 5 = 20 square units") "area"
          [("length", 4), ("width", 5)] := by
  have h : (4 : ℚ) * 5 = 20 := by norm_num
  calc executeCalculation ⟨"area", [("length", 4), ("width", 5)], none, none, none⟩ noEval
      = CalcOutput.ok ((4 : ℚ) * 5)
          (lit "Area = " ++ qToStr 4 ++ lit " × " ++ qToStr 5 ++ lit " = "
            ++ qToStr ((4 : ℚ) * 5) ++ lit " square units") "area"
          [("length", 4), ("width", 5)] := rfl
    _ = _ := by rw [h]; rfl
example :
    executeCalculation ⟨"area", [], none, none, none⟩ noEval
      = CalcOutput.error "Missing required values for area calculation (length/width or radius)" := by
  rfl

/-! ## Relational store rows and `deleteDocument` (`src/server/db.ts`) -/

/-- A `documents` table row (the columns `deleteDocument` consults). -/
structure DbDocument where
  id : Nat
  userId : Nat
deriving DecidableEq

/-- A `documentChunks` table row (the columns `deleteDocument` consults). -/
structure DbChunk where
  id : Nat
  documentId : Nat
  userId : Nat
deriving DecidableEq

/-- The relational store state: the two tables `deleteDocument` writes. -/
structure DbState where
  documents : List DbDocument
  documentChunks : List DbChunk
deriving DecidableEq

/-- `deleteDocument(id, userId)`: first `DELETE FROM documentChunks WHERE
documentId = id` (no `userId` condition in the source), then `DELETE FROM
documents WHERE id = id AND userId = userId`; returns
`affectedRows > 0` of the second delete, paired with the new store state. -/
def deleteDocument (st : DbState) (id userId : Nat) : Bool × DbState :=
  let chunksAfter := st.documentChunks.filter (fun c => !(c.documentId == id))
  let affectedRows :=
    (st.documents.filter (fun d => d.id == id && d.userId == userId)).length
  let docsAfter :=
    st.documents.filter (fun d => !(d.id == id && d.userId == userId))
  (decide (0 < affectedRows), ⟨docsAfter, chunksAfter⟩)

/-! ## Retrieval search (`searchDocuments` in the agent module)

`getDocumentsByUserId userId` and `getChunksByUserDocuments userId` return the
calling user's rows in storage order; the embedded function receives those two
lists as its first arguments. -/

/-- A `Document` row as read by the agent module. -/
structure DocumentRec where
  id : Nat
  originalName : String
  documentType : String
  pageCount : Option Nat
deriving DecidableEq

/-- A `DocumentChunk` row as read by the agent module. -/
structure ChunkRec where
  documentId : Nat
  content : Str
  pageNumber : Option Nat
  sectionTitle : Option String
deriving DecidableEq

/-- The `Citation` value type of the agent module. -/
structure Citation where
  documentId : Nat
  documentName : String
  pageNumber : Option Nat
  «section» : Option String
  excerpt : Str
deriving DecidableEq

/-- One element of `searchDocuments(...).chunks`. -/
structure SearchEntry where
  content : Str
  citation : Citation
deriving DecidableEq

/-- The document list after the optional document-type filter
(`documentTypes && documentTypes.length > 0` guards the filter). -/
def relevantDocs (documents : List DocumentRec) (documentTypes : Option (List String)) :
    List DocumentRec :=
  match documentTypes with
  | some dts =>
    if 0 < dts.length then documents.filter (fun d => dts.contains d.documentType)
    else documents
  | none => documents

/-- Builds the `{content, citation}` record for a matching chunk: document name
via `documents.find(...)?.originalName || "Unknown Document"`, excerpt =
`content.substring(0, 200)` plus `"..."` when truncated. -/
def mkSearchEntry (documents : List DocumentRec) (c : ChunkRec) : SearchEntry :=
  { content := c.content,
    citation :=
      { documentId := c.documentId,
        documentName :=
          match documents.find? (fun d => d.id == c.documentId) with
          | some d => if d.originalName.isEmpty then "Unknown Document" else d.originalName
          | none => "Unknown Document",
        pageNumber := c.pageNumber,
        «section» := c.sectionTitle,
        excerpt := c.content.take 200
          ++ (if 200 < c.content.length then lit "..." else []) } }

/-- `searchDocuments`: keyword matching of lower-cased whitespace-split query
terms against lower-cased chunk contents, restricted to the id set of the
type-filtered documents, truncated by `slice(0, 10)`. -/
def searchDocuments (documents : List DocumentRec) (chunks : List ChunkRec)
    (query : Str) (documentTypes : Option (List String)) : List SearchEntry :=
  ((chunks.filter (fun c =>
      ((relevantDocs documents documentTypes).map (fun d => d.id)).contains c.documentId
        && (splitWs (toLowerStr query)).any
            (fun t => isSubstr t (toLowerStr c.content)))).take 10).map
    (mkSearchEntry documents)

/-! ## Chunker (`splitIntoChunks` in `src/server/documentProcessor.ts`)

The `while (start < text.length)` loop is embedded with explicit fuel: the
loop variable `start` is an `Int` (it can become negative via
`start = end - overlap`), and one fuel unit is one loop iteration.  `none`
means the fuel was exhausted with the loop still running. -/

/-- The boundary markers, in source priority order. -/
def chunkBreakPoints : List Str := [lit "\n\n", lit ".\n", lit ". ", lit "\n"]

/-- The `for (const bp of breakPoints)` loop: the first marker whose last
occurrence at or before `e` lies strictly after the window midpoint moves the
window end to just after that occurrence.  The JavaScript comparison
`lastBreak > start + chunkSize / 2` (exact float halving) is rendered
integrally as `2 * lastBreak > 2 * start + size`. -/
def findBreak (text : Str) (start : Int) (size : Nat) (e : Int) : List Str → Option Int
  | [] => none
  | bp :: rest =>
    let lastBreak := jsLastIndexOf text bp e
    if 2 * lastBreak > 2 * start + (size : Int) then some (lastBreak + bp.length)
    else findBreak text start size e rest

/-- The window end of one loop iteration: `end = start + chunkSize`, moved to
just after a boundary marker when `findBreak` fires (only attempted while
`end < text.length`). -/
def chunkEnd (text : Str) (size : Nat) (start : Int) : Int :=
  if start + (size : Int) < (text.length : Int) then
    match findBreak text start size (start + size) chunkBreakPoints with
    | some e1 => e1
    | none => start + size
  else start + size

/-- One iteration of the chunking loop: the pushed (trimmed) chunk
`text.slice(start, end).trim()` and the next value of `start`,
`end - overlap`. -/
def chunkStep (text : Str) (size overlap : Nat) (start : Int) : Str × Int :=
  (jsTrim (jsSlice text start (chunkEnd text size start)),
    chunkEnd text size start - overlap)

/-- The chunking loop, fuel-indexed: the list of pushed (trimmed) window
slices, or `none` if `fuel` iterations did not finish the loop. -/
def chunkWalk (text : Str) (size overlap : Nat) : Nat → Int → Option (List Str)
  | 0, start => if start < (text.length : Int) then none else some []
  | fuel + 1, start =>
    if start < (text.length : Int) then
      (chunkWalk text size overlap fuel (chunkStep text size overlap start).2).map
        (fun rest => (chunkStep text size overlap start).1 :: rest)
    else some []

/-- `splitIntoChunks(text, chunkSize, overlap)`: the loop's slices filtered by
`c.length > 50`. -/
def splitIntoChunks (fuel : Nat) (text : Str) (size overlap : Nat) : Option (List Str) :=
  (chunkWalk text size overlap fuel 0).map (List.filter (fun c => 50 < c.length))

/-- Termination of the `splitIntoChunks` loop on a given input: some finite
fuel completes the walk. -/
def ChunkTerminates (text : Str) (size overlap : Nat) : Prop :=
  ∃ fuel r, chunkWalk text size overlap fuel 0 = some r

example :
    splitIntoChunks 3 (lit "aaaaabbbbbcccccdddd") 10 2 = some [] := by decide
example :
    chunkWalk (lit "aaaaabbbbbcccccdddd") 10 2 3 0
      = some [lit "aaaaabbbbb", lit "bbcccccddd", lit "ddd"] := by decide
example :
    chunkWalk (lit "aaaaaa.\nbbbbbbbbbbbb") 10 2 5 0
      = some [lit "aaaaaa.", lit ".\nbbbbbbbb", lit "bbbbbb"] := by decide

/-! ## Agent Loop (`runAgent` in the agent module)

The two `invokeLLM` results are free parameters of the embedding (`resp1` for
the tool-choice round, `resp2` for the final round): the prompt construction
only feeds the collaborator and cannot affect which branches `runAgent` takes,
so it is elided.  `JSON.parse(toolCall.function.arguments)` is modelled by the
tool call carrying its already-parsed argument object. -/

/-- A JavaScript value as far as the agent inspects one: a string, or any
non-string value carried together with its `JSON.stringify` rendering. -/
inductive JsVal where
  | str (s : Str)
  | obj (stringified : Str)
deriving DecidableEq

/-- The `content` of the returned `AgentResponse`: `typeof x === 'string' ? x
: JSON.stringify(x)`, which is `undefined` (not a string) when `x` is
`undefined`, because `JSON.stringify(undefined)` returns `undefined`. -/
inductive JsStrOrUndef where
  | str (s : Str)
  | undef
deriving DecidableEq

/-- `typeof x === 'string' ? x : JSON.stringify(x)` for a possibly-absent
JavaScript value. -/
def jsStringifyContent : Option JsVal → JsStrOrUndef
  | some (JsVal.str s) => JsStrOrUndef.str s
  | some (JsVal.obj j) => JsStrOrUndef.str j
  | none => JsStrOrUndef.undef

/-- The parsed argument object of a tool call: one optional slot per property
any dispatch branch reads (absent JSON properties are defaulted like the
source's unchecked property reads). -/
structure ToolArgs where
  query : Str := []
  document_types : Option (List String) := none
  calculation_type : String := ""
  values : ValMap := []
  formula : Option Str := none
  unit_from : Option String := none
  unit_to : Option String := none
  analysis_type : Str := []
  report_type : Str := []
  topics : List Str := []
  spec_type : Str := []
  attributes : Option (List Str) := none
deriving DecidableEq

/-- A tool call requested by the first LLM response: `function.name` plus the
parsed `function.arguments`. -/
structure ToolCall where
  name : String
  args : ToolArgs
deriving DecidableEq

/-- The assistant message inside an LLM choice. -/
structure AssistantMessage where
  content : Option JsVal
  tool_calls : Option (List ToolCall)
deriving DecidableEq

/-- One element of `choices` (`message` may be absent). -/
structure LLMChoice where
  message : Option AssistantMessage
deriving DecidableEq

/-- An `invokeLLM` result. -/
structure LLMResponse where
  choices : List LLMChoice
deriving DecidableEq

/-- The structured `toolOutput` recorded per dispatch branch. -/
inductive ToolOutput where
  | search (found : Nat) (results : List SearchEntry)
  | calc (out : CalcOutput)
  | schedule (analysis_type : Str) (found_items : Nat) (data : List SearchEntry)
  | report (report_type : Str) (sections_found : Nat) (sources : List SearchEntry)
  | conflicts (topics : List Str) (results : List (Str × List SearchEntry))
  | specs (spec_type : Str) (found : Nat) (data : List SearchEntry)
  | unknownTool (name : String)
deriving DecidableEq

/-- A `ToolCallResult` audit entry. -/
structure ToolCallResult where
  tool : String
  input : ToolArgs
  output : ToolOutput
deriving DecidableEq

/-- The agent's return value. -/
structure AgentResponse where
  content : JsStrOrUndef
  citations : List Citation
  toolCalls : List ToolCallResult
deriving DecidableEq

/-- The collaborators and store contents a `runAgent` call runs against:
the calling user's document and chunk rows (in storage order), the two LLM
responses, and the dynamic-evaluation collaborator of the custom-calculation
branch. -/
structure AgentEnv where
  documents : List DocumentRec
  chunks : List ChunkRec
  resp1 : LLMResponse
  resp2 : LLMResponse
  customEval : Str → ValMap → Option ℚ

/-- `'_'.replace(/_/g, ' ')` as used on `report_type`. -/
def underscoresToSpaces (s : Str) : Str :=
  s.map (fun ch => if ch = '_' then ' ' else ch)

/-- The `switch (toolName)` dispatch: the structured output of one tool call
plus the citations it pushes, in push order. -/
def runToolCall (env : AgentEnv) (tc : ToolCall) : ToolOutput × List Citation :=
  match tc.name with
  | "search_documents" =>
    let r := searchDocuments env.documents env.chunks tc.args.query tc.args.document_types
    (ToolOutput.search r.length r, r.map (fun e => e.citation))
  | "calculate_quantity" =>
    (ToolOutput.calc (executeCalculation
      ⟨tc.args.calculation_type, tc.args.values, tc.args.formula,
        tc.args.unit_from, tc.args.unit_to⟩ env.customEval), [])
  | "analyze_schedule" =>
    let q := lit "schedule " ++ tc.args.analysis_type ++ lit " timeline milestone"
    let r := searchDocuments env.documents env.chunks q (some ["cpm_schedule"])
    (ToolOutput.schedule tc.args.analysis_type r.length r, r.map (fun e => e.citation))
  | "generate_report" =>
    let q := underscoresToSpaces tc.args.report_type
    let r := searchDocuments env.documents env.chunks q none
    (ToolOutput.report tc.args.report_type r.length r, r.map (fun e => e.citation))
  | "detect_conflicts" =>
    let rs := tc.args.topics.map
      (fun t => (t, searchDocuments env.documents env.chunks t none))
    (ToolOutput.conflicts tc.args.topics rs,
      (rs.map (fun p => p.2.map (fun e => e.citation))).flatten)
  | "extract_specifications" =>
    let q := tc.args.spec_type ++ lit " specification "
      ++ List.intercalate (lit " ") (tc.args.attributes.getD [])
    let r := searchDocuments env.documents env.chunks q none
    (ToolOutput.specs tc.args.spec_type r.length r, r.map (fun e => e.citation))
  | other => (ToolOutput.unknownTool other, [])

/-- Key of the citation-dedup `Map`: the JavaScript expression
`c.documentId + c.excerpt`, i.e. `String(documentId)` concatenated with the
excerpt, with no separator. -/
def dedupeKey (c : Citation) : Str := natToStr c.documentId ++ c.excerpt

/-- `Map.prototype.set`: overwrites the value in place if the key is present,
appends otherwise (JavaScript `Map` preserves key insertion order). -/
def jsMapSet (m : List (Str × Citation)) (k : Str) (v : Citation) :
    List (Str × Citation) :=
  if m.any (fun p => p.1 == k) then
    m.map (fun p => if p.1 == k then (p.1, v) else p)
  else m ++ [(k, v)]

/-- The dedup block: insert every citation into a `Map` keyed by
`c.documentId + c.excerpt`, then take `Array.from(map.values())`. -/
def dedupeCitations (cs : List Citation) : List Citation :=
  (cs.foldl (fun m c => jsMapSet m (dedupeKey c) c) []).map (fun p => p.2)

/-- The hard-coded fallback content returned when the first LLM invocation
yields no assistant message. -/
def agentFallback : Str :=
  lit "I apologize, but I encountered an error processing your request. Please try again."

/-- The no-tool-calls return: the assistant message's own content (stringified
if not a string), with the still-empty citation and tool lists. -/
def directReturn (am : AssistantMessage) : AgentResponse :=
  ⟨jsStringifyContent am.content, [], []⟩

/-- The tool loop: left fold over the requested calls, accumulating pushed
citations and `ToolCallResult` entries in request order. -/
def runToolCalls (env : AgentEnv) (tcs : List ToolCall) :
    List Citation × List ToolCallResult :=
  tcs.foldl
    (fun acc tc =>
      let r := runToolCall env tc
      (acc.1 ++ r.2, acc.2 ++ [⟨tc.name, tc.args, r.1⟩]))
    ([], [])

/-- `runAgent`: first LLM round (fallback if it yields no message), optional
tool round with second LLM round and citation dedup, or direct return. -/
def runAgent (env : AgentEnv) : AgentResponse :=
  match (env.resp1.choices.head?).bind (fun ch => ch.message) with
  | none => ⟨JsStrOrUndef.str agentFallback, [], []⟩
  | some assistantMessage =>
    match assistantMessage.tool_calls with
    | some tcs =>
      if 0 < tcs.length then
        let acc := runToolCalls env tcs
        let finalContent :=
          ((env.resp2.choices.head?).bind (fun ch => ch.message)).bind
            (fun m => m.content)
        ⟨jsStringifyContent finalContent, dedupeCitations acc.1, acc.2⟩
      else directReturn assistantMessage
    | none => directReturn assistantMessage

/-! ## Concrete environments used by counterexample / bug-exhibiting theorems -/

/-- A first-round LLM response requesting one `search_documents` call. -/
def c1Env : AgentEnv :=
  ⟨[], [],
    ⟨[⟨some ⟨some (JsVal.str (lit "searching")),
        some [⟨"search_documents", { query := lit "concrete" }⟩]⟩⟩]⟩,
    ⟨[]⟩, noEval⟩

/-- Store for the cross-user delete: document 1 with one chunk, both owned by
user 1. -/
def c3State : DbState := ⟨[⟨1, 1⟩], [⟨1, 1, 1⟩]⟩

/-! ## Theorems -/

/-- C3.  The claim says `deleteDocument(id, userId)` on a document not owned
by `userId` deletes no row of any table.  The code's chunk delete is not
scoped by `userId`: called by user 2 on user 1's document 1, it deletes user
1's `DocumentChunk` row (the chunk table becomes empty) even though the
`documents` delete affects no row and the call reports failure.  This theorem
evaluates the embedded `deleteDocument` at that failing input. -/
theorem deleteDocument_cross_user_chunk_delete_bug :
    (deleteDocument c3State 1 2).1 = false ∧
    (deleteDocument c3State 1 2).2 = ⟨[⟨1, 1⟩], []⟩ ∧
    c3State.documentChunks ≠ [] := by decide

/-- C1.  The claim says that when either LLM invocation yields no assistant
message, `runAgent` returns a non-empty fallback content string and empty
`citations`/`toolCalls`.  When the FIRST round requests a tool call and the
SECOND round yields no message, the code instead returns
`JSON.stringify(undefined)` — i.e. `undefined`, not a string, violating the
declared `AgentResponse.content : string` — together with the non-empty
`toolCalls` audit list.  This theorem evaluates the embedded `runAgent` on
such an environment. -/
theorem runAgent_second_round_no_message_bug :
    (runAgent c1Env).content = JsStrOrUndef.undef ∧
    (runAgent c1Env).toolCalls
      = [⟨"search_documents", { query := lit "concrete" }, ToolOutput.search 0 []⟩] ∧
    (runAgent c1Env).citations = [] := by decide

/-- C4.  For every well-typed input and every behaviour of the dynamic
evaluation collaborator, `executeCalculation` returns either a structured
success carrying the result, an explanation, the calculation type and the
echoed input values, or a structured error; it never escapes with an
exception (the embedded function is total, and the one throwing collaborator
is consulted only inside the modelled `try` block). -/
theorem executeCalculation_total_structured (input : CalcInput)
    (customEval : Str → ValMap → Option ℚ) :
    (∃ r e, executeCalculation input customEval
        = CalcOutput.ok r e input.calculation_type input.values) ∨
    (∃ m, executeCalculation input customEval = CalcOutput.error m) := by
  rcases input with ⟨t, vm, fm, uf, ut⟩
  dsimp only [executeCalculation]
  repeat' first
    | (left; exact ⟨_, _, rfl⟩)
    | (right; exact ⟨_, rfl⟩)
    | split

/-- C5 counterexample.  The claim says the area branch multiplies whenever
`length` and `width` are PRESENT in the map; the code tests truthiness, so a
present-but-zero `length` falls through to the error branch instead of
returning `0 × 5 = 0`. -/
theorem executeCalculation_area_zero_length_counterexample :
    executeCalculation ⟨"area", [("length", 0), ("width", 5)], none, none, none⟩ noEval
      = CalcOutput.error "Missing required values for area calculation (length/width or radius)" :=
  rfl

/-- C5 (amended).  The area branch returns `length * width` whenever `length`
and `width` are present AND truthy (non-zero); otherwise `Math.PI * radius²`
(exact double value of `Math.PI`) whenever `radius` is present and truthy;
otherwise the structured missing-values error.  Concretely,
`calculate("area", {length:4, width:5})` yields result `20` with an
explanation containing `"4"`, `"5"` and `"20"`. -/
theorem executeCalculation_area_amended :
    (∀ (vm : ValMap) (ev : Str → ValMap → Option ℚ) (fm : Option Str)
        (uf ut : Option String),
      (jsTruthy (jsLookup vm "length") = true → jsTruthy (jsLookup vm "width") = true →
        ∃ e, executeCalculation ⟨"area", vm, fm, uf, ut⟩ ev
          = CalcOutput.ok ((jsLookup vm "length").getD 0 * (jsLookup vm "width").getD 0)
              e "area" vm) ∧
      ((jsTruthy (jsLookup vm "length") && jsTruthy (jsLookup vm "width")) = false →
        jsTruthy (jsLookup vm "radius") = true →
        ∃ e, executeCalculation ⟨"area", vm, fm, uf, ut⟩ ev
          = CalcOutput.ok
              (jsMathPI * (jsLookup vm "radius").getD 0 * (jsLookup vm "radius").getD 0)
              e "area" vm) ∧
      ((jsTruthy (jsLookup vm "length") && jsTruthy (jsLookup vm "width")) = false →
        jsTruthy (jsLookup vm "radius") = false →
        executeCalculation ⟨"area", vm, fm, uf, ut⟩ ev
          = CalcOutput.error
              "Missing required values for area calculation (length/width or radius)")) ∧
    (∀ ev, ∃ e,
      executeCalculation ⟨"area", [("length", 4), ("width", 5)], none, none, none⟩ ev
          = CalcOutput.ok 20 e "area" [("length", 4), ("width", 5)]
        ∧ isSubstr (lit "4") e = true ∧ isSubstr (lit "5") e = true
        ∧ isSubstr (lit "20") e = true) := by
  constructor
  · intro vm ev fm uf ut
    refine ⟨?_, ?_, ?_⟩
    · intro h1 h2
      dsimp only [executeCalculation]
      rw [h1, h2]
      exact ⟨_, rfl⟩
    · intro h hr
      dsimp only [executeCalculation]
      rw [h, hr]
      exact ⟨_, rfl⟩
    · intro h hr
      dsimp only [executeCalculation]
      rw [h, hr]
      rfl
  · intro ev
    refine ⟨lit "Area = 4 × 5 = 20 square units", ?_, by decide, by decide, by decide⟩
    have h : (4 : ℚ) * 5 = 20 := by norm_num
    calc executeCalculation ⟨"area", [("length", 4), ("width", 5)], none, none, none⟩ ev
        = CalcOutput.ok ((4 : ℚ) * 5)
            (lit "Area = " ++ qToStr 4 ++ lit " × " ++ qToStr 5 ++ lit " = "
              ++ qToStr ((4 : ℚ) * 5) ++ lit " square units") "area"
            [("length", 4), ("width", 5)] := rfl
      _ = _ := by rw [h]; rfl

/-- C5 witness: the amended theorem applied at `{length: 2, width: 3}`. -/
theorem executeCalculation_area_amended_witness :
    ∃ e, executeCalculation ⟨"area", [("length", 2), ("width", 3)], none, none, none⟩ noEval
      = CalcOutput.ok
          ((jsLookup [("length", 2), ("width", 3)] "length").getD 0
            * (jsLookup [("length", 2), ("width", 3)] "width").getD 0)
          e "area" [("length", 2), ("width", 3)] :=
  (executeCalculation_area_amended.1 [("length", 2), ("width", 3)] noEval none none
    none).1 (by decide) (by decide)

/-- Claim-side conversion lookup, written from the spec's words: the key is
looked up category by category in table order — length, area, volume, weight —
and the first category containing the key wins. -/
def specConvLookup (key : String) : Option ℚ :=
  (UNIT_CONVERSIONS.filterMap (fun cat => jsLookup cat.2 key)).head?

/-- Every factor stored in the conversion table is non-zero (so the source's
truthiness tests on looked-up factors coincide with presence tests). -/
theorem conv_table_factors_ne_zero :
    ∀ cat ∈ UNIT_CONVERSIONS, ∀ p ∈ cat.2, p.2 ≠ 0 := by
  intro cat hc p hp
  fin_cases hc <;> fin_cases hp <;> norm_num

/-- A `jsLookup` hit returns a stored value. -/
theorem jsLookup_mem {m : ValMap} {k : String} {v : ℚ}
    (h : jsLookup m k = some v) : ∃ p ∈ m, p.2 = v := by
  unfold jsLookup at h
  rcases hf : m.find? (fun p => p.1 == k) with _ | p
  · rw [hf] at h
    simp at h
  · rw [hf] at h
    simp at h
    exact ⟨p, List.mem_of_find?_eq_some hf, h⟩

/-- Over a table all of whose stored factors are truthy, the source's loop
(`findFactor`) is the first hit in category order. -/
theorem findFactor_eq_chain (k : String) (tbl : List (String × List (String × ℚ)))
    (hne : ∀ cat ∈ tbl, ∀ v, jsLookup cat.2 k = some v → (v != 0) = true) :
    findFactor k tbl = (tbl.filterMap (fun cat => jsLookup cat.2 k)).head? := by
  induction tbl with
  | nil => rfl
  | cons cat rest ih =>
    rcases h : jsLookup cat.2 k with _ | f
    · simp only [findFactor, h, List.filterMap_cons]
      exact ih (fun c hc => hne c (List.mem_cons_of_mem cat hc))
    · simp only [findFactor, h, List.filterMap_cons, hne cat (List.mem_cons_self cat rest) f h,
        if_true, List.head?_cons]

/-- `findFactor` over the concrete table agrees with the spec-side ordered
lookup. -/
theorem findFactor_eq_specConvLookup (k : String) :
    findFactor k UNIT_CONVERSIONS = specConvLookup k := by
  refine findFactor_eq_chain k UNIT_CONVERSIONS ?_
  intro cat hc v hv
  rcases jsLookup_mem hv with ⟨p, hp, rfl⟩
  simpa [bne_iff_ne] using conv_table_factors_ne_zero cat hc p hp

/-- Evaluation of the table lookup at the key `"ft_to_m"`. -/
theorem findFactor_ft_to_m :
    findFactor "ft_to_m" UNIT_CONVERSIONS = some 0.3048 := by
  have h : ((0.3048 : ℚ) != 0) = true := by
    simp only [bne_iff_ne, ne_eq]
    norm_num
  calc findFactor "ft_to_m" UNIT_CONVERSIONS
      = if ((0.3048 : ℚ) != 0) = true then some 0.3048
        else findFactor "ft_to_m" (UNIT_CONVERSIONS.drop 1) := rfl
    _ = some 0.3048 := by rw [h]; rfl

/-- C6 counterexample.  The claim quantifies over every request with
`unit_from`, `unit_to` and a numeric `value` present and says an unsupported
key yields an error NAMING the conversion; with the present-but-empty
`unit_from = ""` (whose key `"_to_m"` is in no category) the code's truthiness
guard instead returns the generic missing-values error. -/
theorem executeCalculation_conversion_empty_unit_counterexample :
    executeCalculation ⟨"conversion", [("value", 10)], none, some "", some "m"⟩ noEval
      = CalcOutput.error "Missing required values for conversion (value, unit_from, unit_to)"
    ∧ findFactor ("" ++ "_to_" ++ "m") UNIT_CONVERSIONS = none :=
  ⟨rfl, rfl⟩

/-- C6 (amended).  For every conversion request whose `unit_from` and
`unit_to` are present and NON-EMPTY and whose `value` is present, the engine
looks up `"{from}_to_{to}"` with the first category (length, area, volume,
weight, in that order) winning, and returns `value * factor`; a key in no
category yields the error naming the unsupported conversion.  Converting 10
from `"ft"` to `"m"` yields a result within `1e-6` of `3.048` (here exactly
`3.048`). -/
theorem executeCalculation_conversion_amended :
    (∀ k, findFactor k UNIT_CONVERSIONS = specConvLookup k) ∧
    (∀ (vm : ValMap) (ev : Str → ValMap → Option ℚ) (fm : Option Str)
        (uf ut : String) (v : ℚ),
      uf ≠ "" → ut ≠ "" → jsLookup vm "value" = some v →
      (∀ f, findFactor (uf ++ "_to_" ++ ut) UNIT_CONVERSIONS = some f →
        ∃ e, executeCalculation ⟨"conversion", vm, fm, some uf, some ut⟩ ev
          = CalcOutput.ok (v * f) e "conversion" vm) ∧
      (findFactor (uf ++ "_to_" ++ ut) UNIT_CONVERSIONS = none →
        executeCalculation ⟨"conversion", vm, fm, some uf, some ut⟩ ev
          = CalcOutput.error
              ("Conversion from " ++ uf ++ " to " ++ ut ++ " not supported"))) ∧
    (∀ ev, ∃ e r,
      executeCalculation ⟨"conversion", [("value", 10)], none, some "ft", some "m"⟩ ev
          = CalcOutput.ok r e "conversion" [("value", 10)]
        ∧ |r - 3048 / 1000| ≤ 1 / 1000000) := by
  refine ⟨findFactor_eq_specConvLookup, ?_, ?_⟩
  · intro vm ev fm uf ut v huf hut hv
    have hcond : (jsTruthyStr (some uf) && jsTruthyStr (some ut)
        && (jsLookup vm "value").isSome) = true := by
      simp [jsTruthyStr, hv, Bool.not_eq_true', Bool.eq_false_iff,
        String.isEmpty_iff, huf, hut]
    constructor
    · intro f hf
      dsimp only [executeCalculation]
      simp only [Option.getD_some]
      rw [hcond, hf, hv]
      exact ⟨_, rfl⟩
    · intro hf
      dsimp only [executeCalculation]
      simp only [Option.getD_some]
      rw [hcond, hf]
      rfl
  · intro ev
    refine ⟨qToStr 10 ++ lit " " ++ lit "ft" ++ lit " = "
      ++ qToFixed4 ((10 : ℚ) * 0.3048) ++ lit " " ++ lit "m", 10 * 0.3048, ?_, by norm_num⟩
    calc executeCalculation ⟨"conversion", [("value", 10)], none, some "ft", some "m"⟩ ev
        = (match findFactor "ft_to_m" UNIT_CONVERSIONS with
           | some factor =>
             CalcOutput.ok ((10 : ℚ) * factor)
               (qToStr 10 ++ lit " " ++ lit "ft" ++ lit " = "
                 ++ qToFixed4 ((10 : ℚ) * factor) ++ lit " " ++ lit "m")
               "conversion" [("value", 10)]
           | none =>
             CalcOutput.error ("Conversion from " ++ "ft" ++ " to " ++ "m"
               ++ " not supported")) := rfl
      _ = _ := by rw [findFactor_ft_to_m]

/-- C6 witness: the amended theorem applied at value 2, `"ft"` to `"m"`. -/
theorem executeCalculation_conversion_amended_witness :
    ∃ e, executeCalculation ⟨"conversion", [("value", 2)], none, some "ft", some "m"⟩ noEval
      = CalcOutput.ok (2 * 0.3048) e "conversion" [("value", 2)] :=
  (executeCalculation_conversion_amended.2.1 [("value", 2)] noEval none "ft" "m" 2
    (by decide) (by decide) rfl).1 0.3048 findFactor_ft_to_m

/-- A 50-character whitespace-free text. -/
def fiftyChars : Str := List.replicate 50 'a'

/-- A 60-character whitespace-free text. -/
def sixtyChars : Str := List.replicate 60 'b'

/-- C8 counterexample.  The claim says every trimmed window slice of length at
least 50 appears in the output; the code filters with `c.length > 50`, so the
single 50-character slice of a 50-character text is dropped and
`splitIntoChunks` returns the empty list. -/
theorem splitIntoChunks_drops_length_50_counterexample :
    chunkWalk fiftyChars 2000 200 51 0 = some [fiftyChars] ∧
    fiftyChars.length = 50 ∧
    splitIntoChunks 51 fiftyChars 2000 200 = some [] := by decide

/-- C8 (amended).  The chunker drops exactly the slices of length ≤ 50
(strictly `> 50` survives): whenever the walk completes, the output is the
slice list filtered by `length > 50`, every returned chunk has length ≥ 51,
and a slice appears in the output iff it is a walk slice of length ≥ 51. -/
theorem splitIntoChunks_filter_amended (fuel : Nat) (text : Str)
    (size overlap : Nat) (slices : List Str)
    (h : chunkWalk text size overlap fuel 0 = some slices) :
    splitIntoChunks fuel text size overlap
        = some (slices.filter (fun c => 50 < c.length)) ∧
    (∀ c ∈ slices.filter (fun c => 50 < c.length), 51 ≤ c.length) ∧
    (∀ s, s ∈ slices.filter (fun c => 50 < c.length) ↔ s ∈ slices ∧ 51 ≤ s.length) := by
  refine ⟨by simp [splitIntoChunks, h], ?_, ?_⟩
  · intro c hc
    simp only [List.mem_filter, decide_eq_true_eq] at hc
    omega
  · intro s
    simp only [List.mem_filter, decide_eq_true_eq]
    exact and_congr_right (fun _ => Iff.rfl)

/-- C8 witness: the amended theorem applied to a 60-character text with the
default parameters. -/
theorem splitIntoChunks_filter_amended_witness :
    splitIntoChunks 61 sixtyChars 2000 200
      = some ([sixtyChars].filter (fun c => 50 < c.length)) :=
  (splitIntoChunks_filter_amended 61 sixtyChars 2000 200 [sixtyChars] (by decide)).1

/-- The text on which the chunking loop diverges with `size = 10`,
`overlap = 9`: a short paragraph boundary pulls the window end back far enough
that `start = end - overlap` moves backwards to a fixed point. -/
def c9Text : Str := lit "aaaaaa\n\naaaaaaaaaaaaaaaaaaaa"

/-- From `start = -1` the `c9Text` loop never leaves `start = -1`. -/
theorem chunkWalk_c9_stuck (fuel : Nat) : chunkWalk c9Text 10 9 fuel (-1) = none := by
  induction fuel with
  | zero => decide
  | succ n ih =>
    have hstep : chunkStep c9Text 10 9 (-1) = ([], -1) := by decide
    show chunkWalk c9Text 10 9 (n + 1) (-1) = none
    unfold chunkWalk
    rw [if_pos (by decide), hstep]
    dsimp only
    rw [ih]
    rfl

/-- C9 counterexample.  The claim says `splitIntoChunks` terminates for every
text whenever `size > overlap ≥ 0` because `start` strictly increases; with
`size = 10 > overlap = 9` on `c9Text`, the boundary-break step sends
`start = 0` to `-1` and then `-1` to `-1` forever: no fuel completes the
loop. -/
theorem splitIntoChunks_nonterminating_counterexample :
    ¬ ChunkTerminates c9Text 10 9 := by
  rintro ⟨fuel, r, hr⟩
  cases fuel with
  | zero =>
    have h0 : chunkWalk c9Text 10 9 0 0 = none := by decide
    rw [h0] at hr
    exact Option.noConfusion hr
  | succ n =>
    have hstep : chunkStep c9Text 10 9 0 = (lit "aaaaaa", -1) := by decide
    unfold chunkWalk at hr
    rw [if_pos (by decide), hstep] at hr
    dsimp only at hr
    rw [chunkWalk_c9_stuck n] at hr
    exact Option.noConfusion hr

/-- The four boundary markers are non-empty. -/
theorem chunkBreakPoints_ne_nil : ∀ bp ∈ chunkBreakPoints, 1 ≤ bp.length := by decide

/-- A successful `findBreak` pushes the window end strictly past the midpoint
by at least the marker length. -/
theorem findBreak_bound {text : Str} {start : Int} {size : Nat} {e : Int}
    {bps : List Str} (hbps : ∀ bp ∈ bps, 1 ≤ bp.length) {e1 : Int}
    (h : findBreak text start size e bps = some e1) :
    2 * start + (size : Int) + 2 ≤ 2 * e1 := by
  induction bps with
  | nil => exact absurd h (by simp [findBreak])
  | cons bp rest ih =>
    unfold findBreak at h
    by_cases hc : 2 * jsLastIndexOf text bp e > 2 * start + (size : Int)
    · rw [if_pos hc] at h
      have hbp : 1 ≤ bp.length := hbps bp (List.mem_cons_self bp rest)
      have he1 : jsLastIndexOf text bp e + (bp.length : Int) = e1 := by
        injection h
      omega
    · rw [if_neg hc] at h
      exact ih (fun b hb => hbps b (List.mem_cons_of_mem bp hb)) h

/-- With `0 < size` and `2 * overlap ≤ size`, every loop iteration advances
`start` by at least one. -/
theorem chunkStep_progress (text : Str) (size overlap : Nat) (start : Int)
    (hsize : 0 < size) (hov : 2 * overlap ≤ size) :
    start + 1 ≤ (chunkStep text size overlap start).2 := by
  show start + 1 ≤ chunkEnd text size start - overlap
  unfold chunkEnd
  by_cases he : (start + (size : Int)) < (text.length : Int)
  · rw [if_pos he]
    rcases hfb : findBreak text start size (start + size) chunkBreakPoints with _ | e1
    · dsimp only
      omega
    · dsimp only
      have := findBreak_bound chunkBreakPoints_ne_nil hfb
      omega
  · rw [if_neg he]
    omega

/-- With `0 < size` and `2 * overlap ≤ size`, fuel `text.length - start`
completes the walk from `start`. -/
theorem chunkWalk_total (text : Str) (size overlap : Nat)
    (hsize : 0 < size) (hov : 2 * overlap ≤ size) :
    ∀ (fuel : Nat) (start : Int), (text.length : Int) ≤ start + (fuel : Int) →
    ∃ r, chunkWalk text size overlap fuel start = some r := by
  intro fuel
  induction fuel with
  | zero =>
    intro start h
    refine ⟨[], ?_⟩
    unfold chunkWalk
    rw [if_neg (by omega)]
  | succ n ih =>
    intro start h
    by_cases hs : start < (text.length : Int)
    · have hp := chunkStep_progress text size overlap start hsize hov
      rcases ih (chunkStep text size overlap start).2 (by push_cast at h ⊢; omega)
        with ⟨r, hr⟩
      refine ⟨(chunkStep text size overlap start).1 :: r, ?_⟩
      unfold chunkWalk
      rw [if_pos hs, hr]
      rfl
    · refine ⟨[], ?_⟩
      unfold chunkWalk
      rw [if_neg hs]

/-- C9 (amended).  `splitIntoChunks` terminates for every input text whenever
`0 < size` and `2 * overlap ≤ size` (which holds for the default parameters
2000/200): fuel `text.length + 1` completes the loop.  `size > overlap` alone
does not suffice — a boundary break can move the window end back below
`start + overlap`, shrinking `start` (see the counterexample). -/
theorem splitIntoChunks_terminates_amended (text : Str) (size overlap : Nat)
    (hsize : 0 < size) (hov : 2 * overlap ≤ size) :
    ∃ r, splitIntoChunks (text.length + 1) text size overlap = some r := by
  rcases chunkWalk_total text size overlap hsize hov (text.length + 1) 0
    (by push_cast; omega) with ⟨r, hr⟩
  exact ⟨r.filter (fun c => 50 < c.length), by simp [splitIntoChunks, hr]⟩

/-- C9 witness: termination at the default parameters on a sample text. -/
theorem splitIntoChunks_terminates_amended_witness :
    ∃ r, splitIntoChunks ((lit "hello world").length + 1) (lit "hello world") 2000 200
      = some r :=
  splitIntoChunks_terminates_amended (lit "hello world") 2000 200 (by decide) (by decide)

/-- Claim-side document-type filter pass, written from the claim's words: with
no filter (absent, or present but empty) every document passes; otherwise a
document passes iff its type is in the filter list. -/
def docPassesFilter (d : DocumentRec) (documentTypes : Option (List String)) : Bool :=
  match documentTypes with
  | some dts => if dts.isEmpty then true else dts.contains d.documentType
  | none => true

/-- Claim-side match predicate, written from the claim's words: the chunk
belongs to a document of the user passing the filter, and some
whitespace-separated term of the lower-cased query is a substring of the
lower-cased chunk content. -/
def chunkMatchesSpec (documents : List DocumentRec) (documentTypes : Option (List String))
    (query : Str) (c : ChunkRec) : Bool :=
  documents.any (fun d => d.id == c.documentId && docPassesFilter d documentTypes)
    && (splitWs (toLowerStr query)).any (fun t => isSubstr t (toLowerStr c.content))

/-- Membership in the type-filtered document list. -/
theorem mem_relevantDocs {d : DocumentRec} {documents : List DocumentRec}
    {dts : Option (List String)} :
    d ∈ relevantDocs documents dts ↔ d ∈ documents ∧ docPassesFilter d dts = true := by
  rcases dts with _ | l
  · simp [relevantDocs, docPassesFilter]
  · unfold relevantDocs docPassesFilter
    dsimp only
    by_cases hl : l.isEmpty
    · have : l = [] := List.isEmpty_iff.mp hl
      subst this
      simp
    · have hlen : 0 < l.length := by
        cases l with
        | nil => exact absurd rfl hl
        | cons a t => simp
      rw [if_pos hlen, if_neg hl]
      simp [List.mem_filter]

/-- Membership in the source's relevant-document id set coincides with the
claim-side existence of a filter-passing document with that id. -/
theorem relevantIds_contains (documents : List DocumentRec)
    (dts : Option (List String)) (n : Nat) :
    ((relevantDocs documents dts).map (fun d => d.id)).contains n
      = documents.any (fun d => d.id == n && docPassesFilter d dts) := by
  rw [Bool.eq_iff_iff]
  constructor
  · intro h
    rcases List.mem_map.mp (List.elem_iff.mp h) with ⟨d, hd, hid⟩
    rcases mem_relevantDocs.mp hd with ⟨hdd, hpass⟩
    refine List.any_eq_true.mpr ⟨d, hdd, ?_⟩
    rw [Bool.and_eq_true]
    exact ⟨beq_iff_eq.mpr hid, hpass⟩
  · intro h
    rcases List.any_eq_true.mp h with ⟨d, hdd, hg⟩
    rw [Bool.and_eq_true] at hg
    rcases hg with ⟨hid, hpass⟩
    exact List.elem_iff.mpr
      (List.mem_map.mpr ⟨d, mem_relevantDocs.mpr ⟨hdd, hpass⟩, beq_iff_eq.mp hid⟩)

/-- C7.  A chunk is included in the search result exactly when it belongs to a
document of the user passing the document-type filter and some
whitespace-separated term of the lower-cased query is a substring of the
lower-cased chunk content; the returned list is the first at-most-10 such
matches in storage order (each mapped to its `{content, citation}` entry); a
user with zero chunks gets an empty result, and the result never exceeds 10
entries. -/
theorem searchDocuments_characterized :
    (∀ (documents : List DocumentRec) (chunks : List ChunkRec) (query : Str)
        (documentTypes : Option (List String)),
      searchDocuments documents chunks query documentTypes
        = ((chunks.filter (chunkMatchesSpec documents documentTypes query)).take 10).map
            (mkSearchEntry documents)) ∧
    (∀ (documents : List DocumentRec) (query : Str)
        (documentTypes : Option (List String)),
      searchDocuments documents [] query documentTypes = []) ∧
    (∀ (documents : List DocumentRec) (chunks : List ChunkRec) (query : Str)
        (documentTypes : Option (List String)),
      (searchDocuments documents chunks query documentTypes).length ≤ 10) := by
  refine ⟨?_, ?_, ?_⟩
  · intro documents chunks query dts
    unfold searchDocuments
    rw [List.filter_congr (fun c _ => ?_)]
    rw [relevantIds_contains]
    rfl
  · intro documents query dts
    rfl
  · intro documents chunks query dts
    unfold searchDocuments
    rw [List.length_map, List.length_take]
    exact min_le_left 10 _

/-- Whitespace characters stay whitespace under `toLowerCase`. -/
theorem jsIsWs_toLower {c : Char} (h : jsIsWs c = true) :
    jsIsWs (Char.toLower c) = true := by
  simp only [jsIsWs, Bool.or_eq_true, decide_eq_true_eq] at h
  rcases h with ((((h | h) | h) | h) | h) | h <;> subst h <;> decide

/-- The empty term is a substring of everything. -/
theorem isSubstr_nil (hay : Str) : isSubstr [] hay = true := by
  cases hay <;> rfl

/-- Splitting an all-whitespace (or empty) string yields the empty string as a
term. -/
theorem nil_mem_splitWs {s : Str} (h : s.all jsIsWs = true) : [] ∈ splitWs s := by
  cases s with
  | nil => exact List.mem_singleton.mpr rfl
  | cons c cs =>
    have hc : jsIsWs c = true := by
      simp [List.all_cons, Bool.and_eq_true] at h
      exact h.1
    show [] ∈ splitWsGo (c :: cs) [] false
    unfold splitWsGo
    rw [if_neg (by simp), if_pos hc]
    exact List.mem_cons_self _ _

/-- C10.  For a query that is empty or all whitespace, splitting yields the
empty term, the empty term is a substring of every chunk content, and so
`searchDocuments` returns the first at-most-10 chunks passing the
document-type filter — a vacuous query matches everything. -/
theorem searchDocuments_whitespace_query_matches_all
    (documents : List DocumentRec) (chunks : List ChunkRec) (query : Str)
    (documentTypes : Option (List String)) (hq : query.all jsIsWs = true) :
    [] ∈ splitWs (toLowerStr query) ∧
    searchDocuments documents chunks query documentTypes
      = ((chunks.filter (fun c =>
          ((relevantDocs documents documentTypes).map (fun d => d.id)).contains
            c.documentId)).take 10).map (mkSearchEntry documents) := by
  have hlow : (toLowerStr query).all jsIsWs = true := by
    simp only [toLowerStr, List.all_map, List.all_eq_true] at hq ⊢
    intro c hc
    exact jsIsWs_toLower (hq c hc)
  have hmem : [] ∈ splitWs (toLowerStr query) := nil_mem_splitWs hlow
  refine ⟨hmem, ?_⟩
  unfold searchDocuments
  rw [List.filter_congr (fun c _ => ?_)]
  have hany : ((splitWs (toLowerStr query)).any
      (fun t => isSubstr t (toLowerStr c.content))) = true :=
    List.any_eq_true.mpr ⟨[], hmem, isSubstr_nil _⟩
  rw [hany, Bool.and_true]

/-- C10 witness: a one-space query over one chunk. -/
theorem searchDocuments_whitespace_query_witness :
    [] ∈ splitWs (toLowerStr (lit " ")) ∧
    searchDocuments [⟨1, "Doc.pdf", "specifications", none⟩]
        [⟨1, lit "some chunk content", none, none⟩] (lit " ") none
      = (([(⟨1, lit "some chunk content", none, none⟩ : ChunkRec)].filter (fun c =>
          ((relevantDocs [⟨1, "Doc.pdf", "specifications", none⟩] none).map
            (fun d => d.id)).contains c.documentId)).take 10).map
          (mkSearchEntry [⟨1, "Doc.pdf", "specifications", none⟩]) :=
  searchDocuments_whitespace_query_matches_all
    [⟨1, "Doc.pdf", "specifications", none⟩]
    [⟨1, lit "some chunk content", none, none⟩] (lit " ") none (by decide)

/-- `Map.set` on a present key leaves the key sequence unchanged. -/
theorem jsMapSet_fst_of_hit {m : List (Str × Citation)} {k : Str} {v : Citation}
    (h : (m.any (fun p => p.1 == k)) = true) :
    (jsMapSet m k v).map Prod.fst = m.map Prod.fst := by
  unfold jsMapSet
  rw [if_pos h, List.map_map]
  refine List.map_eq_map_iff.mpr (fun p _ => ?_)
  by_cases hp : (p.1 == k) = true
  · simp [Function.comp, hp]
  · simp [Function.comp, hp]

/-- `Map.set` on an absent key appends the key. -/
theorem jsMapSet_fst_of_miss {m : List (Str × Citation)} {k : Str} {v : Citation}
    (h : (m.any (fun p => p.1 == k)) = false) :
    (jsMapSet m k v).map Prod.fst = m.map Prod.fst ++ [k] := by
  unfold jsMapSet
  rw [if_neg (by simp [h]), List.map_append]
  rfl

/-- Every entry of `Map.set m k v` is an old entry or carries the new value. -/
theorem jsMapSet_values {m : List (Str × Citation)} {k : Str} {v : Citation}
    {p : Str × Citation} (h : p ∈ jsMapSet m k v) : p.2 = v ∨ p ∈ m := by
  unfold jsMapSet at h
  by_cases hm : (m.any (fun q => q.1 == k)) = true
  · rw [if_pos hm] at h
    rcases List.mem_map.mp h with ⟨q, hq, hgq⟩
    by_cases hqk : (q.1 == k) = true
    · rw [if_pos hqk] at hgq
      left
      rw [← hgq]
    · rw [if_neg hqk] at hgq
      right
      rw [← hgq]
      exact hq
  · rw [if_neg hm] at h
    rcases List.mem_append.mp h with hp | hp
    · right
      exact hp
    · left
      rw [List.mem_singleton.mp hp]

/-- `Map.set` with a key derived from the value preserves the invariant that
every entry's key is derived from its value. -/
theorem jsMapSet_key_inv {m : List (Str × Citation)} {c : Citation}
    (hm : ∀ p ∈ m, dedupeKey p.2 = p.1) :
    ∀ p ∈ jsMapSet m (dedupeKey c) c, dedupeKey p.2 = p.1 := by
  intro p hp
  unfold jsMapSet at hp
  by_cases hhit : (m.any (fun q => q.1 == dedupeKey c)) = true
  · rw [if_pos hhit] at hp
    rcases List.mem_map.mp hp with ⟨q, hq, hgq⟩
    by_cases hqk : (q.1 == dedupeKey c) = true
    · rw [if_pos hqk] at hgq
      rw [← hgq]
      exact (beq_iff_eq.mp hqk).symm
    · rw [if_neg hqk] at hgq
      rw [← hgq]
      exact hm q hq
  · rw [if_neg hhit] at hp
    rcases List.mem_append.mp hp with hp | hp
    · exact hm p hp
    · rw [List.mem_singleton.mp hp]

/-- `Map.set` preserves distinctness of the key sequence. -/
theorem jsMapSet_nodup {m : List (Str × Citation)} {k : Str} {v : Citation}
    (hm : (m.map Prod.fst).Nodup) : ((jsMapSet m k v).map Prod.fst).Nodup := by
  by_cases hhit : (m.any (fun q => q.1 == k)) = true
  · rw [jsMapSet_fst_of_hit hhit]
    exact hm
  · rw [jsMapSet_fst_of_miss (Bool.eq_false_iff.mpr hhit)]
    rw [List.nodup_append]
    refine ⟨hm, List.nodup_singleton k, ?_⟩
    intro x hx hk
    rw [List.mem_singleton.mp hk] at hx
    rcases List.mem_map.mp hx with ⟨q, hq, hqk⟩
    have := (List.any_eq_false.mp (Bool.eq_false_iff.mpr hhit)) q hq
    exact this (beq_iff_eq.mpr hqk)

/-- Keys already present survive `Map.set`. -/
theorem jsMapSet_mem_mono {m : List (Str × Citation)} {k k2 : Str} {v : Citation}
    (h : k2 ∈ m.map Prod.fst) : k2 ∈ (jsMapSet m k v).map Prod.fst := by
  by_cases hhit : (m.any (fun q => q.1 == k)) = true
  · rw [jsMapSet_fst_of_hit hhit]
    exact h
  · rw [jsMapSet_fst_of_miss (Bool.eq_false_iff.mpr hhit)]
    exact List.mem_append.mpr (Or.inl h)

/-- The key passed to `Map.set` is present afterwards. -/
theorem jsMapSet_mem_self (m : List (Str × Citation)) (k : Str) (v : Citation) :
    k ∈ (jsMapSet m k v).map Prod.fst := by
  by_cases hhit : (m.any (fun q => q.1 == k)) = true
  · rw [jsMapSet_fst_of_hit hhit]
    rcases List.any_eq_true.mp hhit with ⟨q, hq, hqk⟩
    rw [← beq_iff_eq.mp hqk]
    exact List.mem_map.mpr ⟨q, hq, rfl⟩
  · rw [jsMapSet_fst_of_miss (Bool.eq_false_iff.mpr hhit)]
    exact List.mem_append.mpr (Or.inr (List.mem_singleton.mpr rfl))

/-- The dedup fold's final key sequence is distinct and every entry's key is
derived from its value. -/
theorem dedupe_fold_inv (cs : List Citation) :
    ∀ m : List (Str × Citation), (m.map Prod.fst).Nodup →
    (∀ p ∈ m, dedupeKey p.2 = p.1) →
    (((cs.foldl (fun m c => jsMapSet m (dedupeKey c) c) m).map Prod.fst).Nodup ∧
      ∀ p ∈ cs.foldl (fun m c => jsMapSet m (dedupeKey c) c) m, dedupeKey p.2 = p.1) := by
  induction cs with
  | nil => exact fun m h1 h2 => ⟨h1, h2⟩
  | cons c rest ih =>
    intro m h1 h2
    exact ih (jsMapSet m (dedupeKey c) c) (jsMapSet_nodup h1) (jsMapSet_key_inv h2)

/-- Every value of the dedup fold comes from the seed map or the folded
list. -/
theorem dedupe_fold_values (cs : List Citation) :
    ∀ (m : List (Str × Citation)) (p : Str × Citation),
    p ∈ cs.foldl (fun m c => jsMapSet m (dedupeKey c) c) m → p ∈ m ∨ p.2 ∈ cs := by
  induction cs with
  | nil => exact fun m p hp => Or.inl hp
  | cons c rest ih =>
    intro m p hp
    rcases ih (jsMapSet m (dedupeKey c) c) p hp with hp2 | hp2
    · rcases jsMapSet_values hp2 with hv | hv
      · exact Or.inr (by rw [hv]; exact List.mem_cons_self c rest)
      · exact Or.inl hv
    · exact Or.inr (List.mem_cons_of_mem c hp2)

/-- Keys present in the seed survive the whole dedup fold. -/
theorem dedupe_fold_mono (cs : List Citation) :
    ∀ (m : List (Str × Citation)) (k : Str), k ∈ m.map Prod.fst →
    k ∈ (cs.foldl (fun m c => jsMapSet m (dedupeKey c) c) m).map Prod.fst := by
  induction cs with
  | nil => exact fun m k h => h
  | cons c rest ih =>
    intro m k h
    exact ih (jsMapSet m (dedupeKey c) c) k (jsMapSet_mem_mono h)

/-- The key of every folded citation is present in the final map. -/
theorem dedupe_fold_key_present (cs : List Citation) :
    ∀ (m : List (Str × Citation)) (c : Citation), c ∈ cs →
    dedupeKey c ∈ (cs.foldl (fun m c => jsMapSet m (dedupeKey c) c) m).map Prod.fst := by
  induction cs with
  | nil => intro m c h; exact absurd h (List.not_mem_nil c)
  | cons c0 rest ih =>
    intro m c h
    rcases List.mem_cons.mp h with rfl | h
    · exact dedupe_fold_mono rest _ _ (jsMapSet_mem_self m (dedupeKey c) c)
    · exact ih _ c h

/-- The deduplicated citation list has pairwise-distinct dedup keys. -/
theorem dedupeCitations_keys_nodup (cs : List Citation) :
    ((dedupeCitations cs).map dedupeKey).Nodup := by
  rcases dedupe_fold_inv cs [] (by simp) (by simp) with ⟨h1, h2⟩
  unfold dedupeCitations
  rw [List.map_map]
  have : ((cs.foldl (fun m c => jsMapSet m (dedupeKey c) c) []).map (dedupeKey ∘ Prod.snd))
      = (cs.foldl (fun m c => jsMapSet m (dedupeKey c) c) []).map Prod.fst :=
    List.map_eq_map_iff.mpr (fun p hp => h2 p hp)
  rw [this]
  exact h1

/-- Store and LLM responses producing two citations with DISTINCT
`(documentId, excerpt)` pairs whose dedup keys collide:
`String(1) + "2abc" = "12abc" = String(12) + "abc"`. -/
def c2Env : AgentEnv :=
  ⟨[⟨1, "DocA.pdf", "specifications", none⟩, ⟨12, "DocB.pdf", "specifications", none⟩],
    [⟨1, lit "2abc", none, none⟩, ⟨12, lit "abc", none, none⟩],
    ⟨[⟨some ⟨some (JsVal.str (lit "searching")),
        some [⟨"search_documents", { query := lit "a" }⟩]⟩⟩]⟩,
    ⟨[⟨some ⟨some (JsVal.str (lit "done")), none⟩⟩]⟩,
    noEval⟩

/-- C2 counterexample.  The claim says two accumulated citations that differ
in `documentId` or `excerpt` both remain distinct entries in the final list.
The dedup key is the separator-less concatenation `documentId + excerpt`, so
the search over `c2Env` accumulates the two distinct pairs `(1, "2abc")` and
`(12, "abc")` — both keyed `"12abc"` — and `runAgent` returns only ONE
citation. -/
theorem runAgent_citation_key_collision_counterexample :
    (searchDocuments c2Env.documents c2Env.chunks (lit "a") none).map
        (fun e => (e.citation.documentId, e.citation.excerpt))
      = [(1, lit "2abc"), (12, lit "abc")] ∧
    dedupeKey ⟨1, "DocA.pdf", none, none, lit "2abc"⟩
      = dedupeKey ⟨12, "DocB.pdf", none, none, lit "abc"⟩ ∧
    (runAgent c2Env).citations.length = 1 := by decide

/-- C2 (amended).  The final citation list of `runAgent` is deduplicated by
the concatenated key `String(documentId) ++ excerpt`: the returned list never
holds two citations with the same key — in particular two citations with
identical `(documentId, excerpt)` never both remain — and every accumulated
citation has a representative with its key in the deduplicated output; but
two citations with distinct pairs may be merged when their concatenations
coincide (see the counterexample). -/
theorem runAgent_citations_dedup_amended :
    (∀ env : AgentEnv, ((runAgent env).citations.map dedupeKey).Nodup) ∧
    (∀ (cs : List Citation) (c : Citation), c ∈ cs →
      ∃ c2, c2 ∈ dedupeCitations cs ∧ dedupeKey c2 = dedupeKey c ∧ c2 ∈ cs) := by
  constructor
  · intro env
    unfold runAgent
    rcases (env.resp1.choices.head?).bind (fun ch => ch.message) with _ | am
    · simp
    · rcases am with ⟨amContent, amTools⟩
      dsimp only
      rcases amTools with _ | tcs
      · simp [directReturn]
      · dsimp only
        by_cases h : 0 < tcs.length
        · rw [if_pos h]
          exact dedupeCitations_keys_nodup _
        · rw [if_neg h]
          simp [directReturn]
  · intro cs c hc
    have hkey := dedupe_fold_key_present cs [] c hc
    rcases List.mem_map.mp hkey with ⟨p, hp, hpk⟩
    rcases dedupe_fold_inv cs [] (by simp) (by simp) with ⟨_, hinv⟩
    refine ⟨p.2, ?_, ?_, ?_⟩
    · unfold dedupeCitations
      exact List.mem_map.mpr ⟨p, hp, rfl⟩
    · rw [hinv p hp, hpk]
    · rcases dedupe_fold_values cs [] p hp with h0 | h0
      · exact absurd h0 (List.not_mem_nil p)
      · exact h0

/-- C2 witness: the amended theorem applied to a trivial environment and a
one-citation list. -/
theorem runAgent_citations_dedup_amended_witness :
    ((runAgent ⟨[], [], ⟨[]⟩, ⟨[]⟩, noEval⟩).citations.map dedupeKey).Nodup ∧
    ∃ c2, c2 ∈ dedupeCitations [⟨1, "D.pdf", none, none, lit "x"⟩]
      ∧ dedupeKey c2 = dedupeKey ⟨1, "D.pdf", none, none, lit "x"⟩
      ∧ c2 ∈ [⟨1, "D.pdf", none, none, lit "x"⟩] :=
  ⟨runAgent_citations_dedup_amended.1 ⟨[], [], ⟨[]⟩, ⟨[]⟩, noEval⟩,
    runAgent_citations_dedup_amended.2 [⟨1, "D.pdf", none, none, lit "x"⟩]
      ⟨1, "D.pdf", none, none, lit "x"⟩ (List.mem_singleton.mpr rfl)⟩
